import Mathlib

/-!
Verification of the message routing and flow-control core of
`jmp_bridge.py` (an XMPP-to-file SMS bridge): the sliding-window rate
limiter, the sender allow-list filter, the outbox drain state machine
and the reconnect discipline.

The Python source is shallowly embedded: timestamps (`time.time()`)
become `Nat`, the `defaultdict(deque)` of per-key windows becomes a
total function `String → List Nat` defaulting to `[]`, and the
module-level environment-derived limits become an explicit `Config`
record threaded through the functions that read them.
-/

namespace JmpBridge

/-- Environment-derived module configuration of `jmp_bridge.py`
(lines 34-40).  `requiredStart` embeds the `REQUIRE_PREFIX` global
(the required command marker at the start of a body). -/
structure Config where
  ALLOWED_SENDERS : List String
  requiredStart : String
  MAX_SMS_LEN : Nat
  INBOUND_LIMIT_PER_MIN : Nat
  OUTBOUND_LIMIT_PER_MIN : Nat
  OUTBOUND_LIMIT_PER_DAY : Nat
deriving Repr

/-- State of `RateLimiter` (lines 49-52): `events_minute` is the
`defaultdict(deque)` keyed by sender (inbound) or `"out::<key>"`
(outbound), `events_day` the shared daily deque.  A deque of floats
becomes a `List Nat` whose head is the deque's left end. -/
structure RateLimiter where
  events_minute : String → List Nat
  events_day : List Nat

/-- A fresh `RateLimiter()`: every per-key deque is empty, as is the
daily deque. -/
def RateLimiter.init : RateLimiter := ⟨fun _ => [], []⟩

/-- Pointwise update of the `events_minute` map, mirroring the
in-place mutation of the deque stored under key `k`. -/
def updMap (m : String → List Nat) (k : String) (v : List Nat) : String → List Nat :=
  fun x => if x = k then v else m x

/-- `RateLimiter._trim_window` (lines 54-57): pop from the left while
the front event is older than `window_seconds`.  `Nat` subtraction is
faithful here: an event not in the past gives `now - t = 0`, which is
never `> window_seconds`, so it is kept, exactly as in Python. -/
def trimWindow (window_seconds now : Nat) : List Nat → List Nat
  | [] => []
  | t :: ts => if now - t > window_seconds then trimWindow window_seconds now ts else t :: ts

/-- `RateLimiter.allow_inbound` (lines 59-66).  `now` is the sampled
`time.time()`.  Returns the boolean result and the successor state;
note the denied branch still stores the trimmed deque (the trim is an
in-place mutation in Python). -/
def allow_inbound (c : Config) (rl : RateLimiter) (sender : String) (now : Nat) :
    Bool × RateLimiter :=
  let q := trimWindow 60 now (rl.events_minute sender)
  if q.length ≥ c.INBOUND_LIMIT_PER_MIN then
    (false, { rl with events_minute := updMap rl.events_minute sender q })
  else
    (true, { rl with events_minute := updMap rl.events_minute sender (q ++ [now]) })

/-- `RateLimiter.allow_outbound` (lines 68-82).  The per-minute check
runs first; when it fails the daily deque is not even trimmed.  Both
appends happen only after both checks pass. -/
def allow_outbound (c : Config) (rl : RateLimiter) (sender_key : String) (now : Nat) :
    Bool × RateLimiter :=
  let kk := "out::" ++ sender_key
  let per_min_q := trimWindow 60 now (rl.events_minute kk)
  if per_min_q.length ≥ c.OUTBOUND_LIMIT_PER_MIN then
    (false, { rl with events_minute := updMap rl.events_minute kk per_min_q })
  else
    let day_q := trimWindow 86400 now rl.events_day
    if day_q.length ≥ c.OUTBOUND_LIMIT_PER_DAY then
      (false, { events_minute := updMap rl.events_minute kk per_min_q, events_day := day_q })
    else
      (true, { events_minute := updMap rl.events_minute kk (per_min_q ++ [now]),
               events_day := day_q ++ [now] })

/-- A sequence of `allow_inbound` calls for one sender at the given
successive `time.time()` samples, collecting the returned booleans. -/
def runInbound (c : Config) (rl : RateLimiter) (sender : String) :
    List Nat → List Bool × RateLimiter
  | [] => ([], rl)
  | t :: ts =>
    let r := allow_inbound c rl sender t
    let rest := runInbound c r.2 sender ts
    (r.1 :: rest.1, rest.2)

/-- Trimming does nothing when every recorded event is within the
window of `now`. -/
lemma trimWindow_eq_self (w now : Nat) (q : List Nat)
    (h : ∀ t ∈ q, now - t ≤ w) : trimWindow w now q = q := by
  induction q with
  | nil => rfl
  | cons t ts _ =>
    have ht : now - t ≤ w := h t (List.mem_cons_self t ts)
    simp [trimWindow, Nat.not_lt.mpr ht]

/-- Core induction for C1: starting from a window `q0` whose events
all lie in the band `[a, a + 60]`, a run of calls whose times also lie
in that band never trims, returns `true` exactly while the window is
below the limit, and appends exactly the accepted times. -/
lemma runInbound_band (c : Config) (sender : String) (a : Nat)
    (ts : List Nat) (rl : RateLimiter) (q0 : List Nat)
    (hq0 : rl.events_minute sender = q0)
    (hband : ∀ t ∈ q0, a ≤ t ∧ t ≤ a + 60)
    (hts : ∀ t ∈ ts, a ≤ t ∧ t ≤ a + 60) :
    (runInbound c rl sender ts).1
        = (List.range ts.length).map (fun i => decide (q0.length + i < c.INBOUND_LIMIT_PER_MIN))
      ∧ (runInbound c rl sender ts).2.events_minute sender
        = q0 ++ ts.take (c.INBOUND_LIMIT_PER_MIN - q0.length) := by
  induction ts generalizing rl q0 with
  | nil => simp [runInbound, hq0]
  | cons t ts ih =>
    have htb : a ≤ t ∧ t ≤ a + 60 := hts t (List.mem_cons_self t ts)
    have hnotrim : trimWindow 60 t q0 = q0 := by
      apply trimWindow_eq_self
      intro u hu
      have hub := hband u hu
      omega
    by_cases hlen : q0.length ≥ c.INBOUND_LIMIT_PER_MIN
    · -- denied: window stays `q0`
      have hstep : allow_inbound c rl sender t
          = (false, { rl with events_minute := updMap rl.events_minute sender q0 }) := by
        simp [allow_inbound, hq0, hnotrim, hlen]
      have hih := ih { rl with events_minute := updMap rl.events_minute sender q0 } q0
        (by simp [updMap]) hband (fun u hu => hts u (List.mem_cons_of_mem t hu))
      refine ⟨?_, ?_⟩
      · simp only [runInbound, hstep, hih.1]
        simp only [List.length_cons]
        rw [List.range_succ_eq_map]
        simp only [List.map_cons, List.map_map]
        rw [List.cons_eq_cons]
        constructor
        · simp [decide_eq_false_iff_not]
          omega
        · apply List.map_congr_left
          intro i _
          simp [Function.comp]
          omega
      · simp only [runInbound, hstep, hih.2]
        have : c.INBOUND_LIMIT_PER_MIN - q0.length = 0 := by omega
        simp [this]
    · -- allowed: window becomes `q0 ++ [t]`
      push_neg at hlen
      have hstep : allow_inbound c rl sender t
          = (true, { rl with events_minute := updMap rl.events_minute sender (q0 ++ [t]) }) := by
        simp [allow_inbound, hq0, hnotrim, Nat.not_le.mpr hlen]
      have hband' : ∀ u ∈ q0 ++ [t], a ≤ u ∧ u ≤ a + 60 := by
        intro u hu
        rcases List.mem_append.mp hu with h | h
        · exact hband u h
        · simp at h; subst h; exact htb
      have hih := ih { rl with events_minute := updMap rl.events_minute sender (q0 ++ [t]) }
        (q0 ++ [t]) (by simp [updMap]) hband'
        (fun u hu => hts u (List.mem_cons_of_mem t hu))
      refine ⟨?_, ?_⟩
      · simp only [runInbound, hstep, hih.1]
        simp only [List.length_cons]
        rw [List.range_succ_eq_map]
        simp only [List.map_cons, List.map_map]
        rw [List.cons_eq_cons]
        constructor
        · simp [hlen]
        · apply List.map_congr_left
          intro i _
          simp [Function.comp, List.length_append]
          omega
      · simp only [runInbound, hstep, hih.2]
        have hsub : c.INBOUND_LIMIT_PER_MIN - q0.length
            = (c.INBOUND_LIMIT_PER_MIN - (q0.length + 1)) + 1 := by omega
        simp [List.length_append, hsub, List.append_assoc]

/-- The trimmed window is a suffix of the original deque. -/
lemma trimWindow_suffix (w now : Nat) (q : List Nat) : trimWindow w now q <:+ q := by
  induction q with
  | nil => exact List.suffix_refl []
  | cons t ts ih =>
    by_cases h : now - t > w
    · simp only [trimWindow, if_pos h]
      exact ih.trans (List.suffix_cons t ts)
    · simp only [trimWindow, if_neg h]
      exact List.suffix_refl _

lemma trimWindow_length_le (w now : Nat) (q : List Nat) :
    (trimWindow w now q).length ≤ q.length :=
  (trimWindow_suffix w now q).length_le

/-- A small test configuration used by the concrete witnesses: limit 2
inbound and outbound per minute, 3 outbound per day. -/
def cW : Config := ⟨["+15551234567"], "", 1000, 2, 2, 3⟩

/-- A test configuration whose outbound limits are zero, so every
outbound call is denied. -/
def cZ : Config := ⟨[], "", 1000, 2, 0, 0⟩

/-- C1: for every sender and every sequence of `allow_inbound` calls
whose times all lie within one 60-second band, the call results are
`true` for the first `INBOUND_LIMIT_PER_MIN` calls and `false` for
every later one, and the recorded window holds exactly
`min (number of calls) limit` events — a denied call appends no
timestamp. -/
theorem c1_allow_inbound_first_N_true_then_false (c : Config) (sender : String)
    (a : Nat) (ts : List Nat) (hts : ∀ t ∈ ts, a ≤ t ∧ t ≤ a + 60) :
    (runInbound c RateLimiter.init sender ts).1
        = (List.range ts.length).map (fun i => decide (i < c.INBOUND_LIMIT_PER_MIN))
      ∧ ((runInbound c RateLimiter.init sender ts).2.events_minute sender).length
        = min ts.length c.INBOUND_LIMIT_PER_MIN := by
  have h := runInbound_band c sender a ts RateLimiter.init [] rfl (by simp) hts
  constructor
  · simpa using h.1
  · rw [h.2]
    simp [List.length_take]
    omega

/-- Witness for C1: with limit 2, three calls in one minute return
`[true, true, false]` and leave 2 recorded events. -/
theorem c1_allow_inbound_first_N_true_then_false_witness :
    (∀ t ∈ [100, 110, 150], 100 ≤ t ∧ t ≤ 100 + 60)
    ∧ ((runInbound cW RateLimiter.init "+15551234567" [100, 110, 150]).1
          = (List.range [100, 110, 150].length).map
              (fun i => decide (i < cW.INBOUND_LIMIT_PER_MIN))
        ∧ ((runInbound cW RateLimiter.init "+15551234567"
              [100, 110, 150]).2.events_minute "+15551234567").length
          = min [100, 110, 150].length cW.INBOUND_LIMIT_PER_MIN) :=
  ⟨by decide, c1_allow_inbound_first_N_true_then_false cW "+15551234567" 100
      [100, 110, 150] (by decide)⟩

/-- C2: a denied `allow_outbound` call appends nothing: the per-key
minute deque holds exactly its trimmed former contents, all other
minute deques are untouched, the daily deque is either untouched (the
per-minute check failed first) or merely trimmed, and neither window
grows — in particular the daily window never passes its limit through
denied calls. -/
theorem c2_allow_outbound_denied_records_nothing (c : Config) (rl : RateLimiter)
    (k : String) (now : Nat) (h : (allow_outbound c rl k now).1 = false) :
    (allow_outbound c rl k now).2.events_minute ("out::" ++ k)
        = trimWindow 60 now (rl.events_minute ("out::" ++ k))
      ∧ (∀ k', k' ≠ "out::" ++ k →
          (allow_outbound c rl k now).2.events_minute k' = rl.events_minute k')
      ∧ ((allow_outbound c rl k now).2.events_day = rl.events_day
          ∨ (allow_outbound c rl k now).2.events_day = trimWindow 86400 now rl.events_day)
      ∧ (allow_outbound c rl k now).2.events_day.length ≤ rl.events_day.length
      ∧ ((allow_outbound c rl k now).2.events_minute ("out::" ++ k)).length
          ≤ (rl.events_minute ("out::" ++ k)).length := by
  by_cases h1 : (trimWindow 60 now (rl.events_minute ("out::" ++ k))).length
      ≥ c.OUTBOUND_LIMIT_PER_MIN
  · have hrl : (allow_outbound c rl k now).2
        = { rl with events_minute := updMap rl.events_minute ("out::" ++ k) (trimWindow 60 now (rl.events_minute ("out::" ++ k))) } := by
      simp [allow_outbound, h1]
    refine ⟨?_, ?_, ?_, ?_, ?_⟩
    · simp [hrl, updMap]
    · intro k' hk'; simp [hrl, updMap, hk']
    · left; simp [hrl]
    · simp [hrl]
    · simp [hrl, updMap]
      exact trimWindow_length_le 60 now _
  · by_cases h2 : (trimWindow 86400 now rl.events_day).length ≥ c.OUTBOUND_LIMIT_PER_DAY
    · have hrl : (allow_outbound c rl k now).2
          = { events_minute := updMap rl.events_minute ("out::" ++ k) (trimWindow 60 now (rl.events_minute ("out::" ++ k))), events_day := trimWindow 86400 now rl.events_day } := by
        simp [allow_outbound, h1, h2]
      refine ⟨?_, ?_, ?_, ?_, ?_⟩
      · simp [hrl, updMap]
      · intro k' hk'; simp [hrl, updMap, hk']
      · right; simp [hrl]
      · simp [hrl]
        exact trimWindow_length_le 86400 now _
      · simp [hrl, updMap]
        exact trimWindow_length_le 60 now _
    · exfalso
      have : (allow_outbound c rl k now).1 = true := by
        simp [allow_outbound, h1, h2]
      simp [this] at h
/-- Witness for C2: with a zero outbound-per-minute limit, the call at
time 5 is denied and the state is untouched (the empty windows only
get trimmed). -/
theorem c2_allow_outbound_denied_records_nothing_witness :
    (allow_outbound cZ RateLimiter.init "global" 5).1 = false
    ∧ ((allow_outbound cZ RateLimiter.init "global" 5).2.events_minute ("out::" ++ "global")
          = trimWindow 60 5 (RateLimiter.init.events_minute ("out::" ++ "global"))
        ∧ (∀ k', k' ≠ "out::" ++ "global" →
            (allow_outbound cZ RateLimiter.init "global" 5).2.events_minute k'
              = RateLimiter.init.events_minute k')
        ∧ ((allow_outbound cZ RateLimiter.init "global" 5).2.events_day
              = RateLimiter.init.events_day
            ∨ (allow_outbound cZ RateLimiter.init "global" 5).2.events_day
              = trimWindow 86400 5 RateLimiter.init.events_day)
        ∧ (allow_outbound cZ RateLimiter.init "global" 5).2.events_day.length
            ≤ RateLimiter.init.events_day.length
        ∧ ((allow_outbound cZ RateLimiter.init "global" 5).2.events_minute
              ("out::" ++ "global")).length
            ≤ (RateLimiter.init.events_minute ("out::" ++ "global")).length) :=
  ⟨rfl, c2_allow_outbound_denied_records_nothing cZ RateLimiter.init "global" 5 rfl⟩

/-- Appending a fresh timestamp `t` at the right end keeps a window
sorted when every recorded event is at most `t`. -/
lemma chain'_append_singleton {q : List Nat} {t : Nat}
    (hq : List.Chain' (· ≤ ·) q) (h : ∀ u ∈ q, u ≤ t) :
    List.Chain' (· ≤ ·) (q ++ [t]) := by
  rw [List.chain'_append]
  refine ⟨hq, List.chain'_singleton t, ?_⟩
  intro x hx y hy
  simp only [List.head?_cons, Option.mem_def, Option.some.injEq] at hy
  subst hy
  obtain ⟨hne, hx'⟩ := List.mem_getLast?_eq_getLast hx
  exact hx' ▸ h _ (List.getLast_mem hne)

/-- One abstract `RateLimiter` call: an inbound check keyed by the
sender, or an outbound check keyed by `sender_key`, each at a sampled
`time.time()`. -/
inductive RLOp
  | inb (sender : String) (t : Nat)
  | outb (key : String) (t : Nat)
deriving Repr, DecidableEq

def RLOp.time : RLOp → Nat
  | .inb _ t => t
  | .outb _ t => t

/-- Apply one call to the limiter state, keeping only the state (the
boolean result is irrelevant to the window invariants). -/
def stepOp (c : Config) (rl : RateLimiter) : RLOp → RateLimiter
  | .inb s t => (allow_inbound c rl s t).2
  | .outb k t => (allow_outbound c rl k t).2

def runOps (c : Config) (rl : RateLimiter) : List RLOp → RateLimiter
  | [] => rl
  | op :: ops => runOps c (stepOp c rl op) ops

/-- Keys of the shape `"out::" ++ k`, reserved by `allow_outbound`
inside the shared `events_minute` map. -/
def isOutKey (s : String) : Prop := ∃ k, s = "out::" ++ k

/-- Window invariant of the limiter at clock bound `T`: every minute
deque and the daily deque are sorted ascending with all entries `≤ T`,
every non-`out::` minute deque is within the inbound limit, every
`out::` deque within the outbound per-minute limit, and the daily
deque within the daily limit. -/
def Inv (c : Config) (rl : RateLimiter) (T : Nat) : Prop :=
  (∀ k, List.Chain' (· ≤ ·) (rl.events_minute k) ∧ ∀ t ∈ rl.events_minute k, t ≤ T)
  ∧ List.Chain' (· ≤ ·) rl.events_day
  ∧ (∀ t ∈ rl.events_day, t ≤ T)
  ∧ (∀ s, ¬ isOutKey s → (rl.events_minute s).length ≤ c.INBOUND_LIMIT_PER_MIN)
  ∧ (∀ k, (rl.events_minute ("out::" ++ k)).length ≤ c.OUTBOUND_LIMIT_PER_MIN)
  ∧ rl.events_day.length ≤ c.OUTBOUND_LIMIT_PER_DAY

lemma trimWindow_chain' {w now : Nat} {q : List Nat}
    (hq : List.Chain' (· ≤ ·) q) : List.Chain' (· ≤ ·) (trimWindow w now q) :=
  hq.sublist (trimWindow_suffix w now q).sublist

lemma trimWindow_mem {w now : Nat} {q : List Nat} {t : Nat}
    (h : t ∈ trimWindow w now q) : t ∈ q :=
  (trimWindow_suffix w now q).sublist.mem h

lemma Inv_mono {c : Config} {rl : RateLimiter} {T T' : Nat}
    (h : Inv c rl T) (hT : T ≤ T') : Inv c rl T' := by
  obtain ⟨h1, h2, h3, h4, h5, h6⟩ := h
  exact ⟨fun k => ⟨(h1 k).1, fun t ht => le_trans ((h1 k).2 t ht) hT⟩,
    h2, fun t ht => le_trans (h3 t ht) hT, h4, h5, h6⟩

/-- `allow_inbound` preserves the window invariant when the clock does
not go backwards and the sender is not an `out::`-reserved key. -/
lemma Inv_step_inb (c : Config) {rl : RateLimiter} {T : Nat} (s : String) (t : Nat)
    (hInv : Inv c rl T) (hT : T ≤ t) (hs : ¬ isOutKey s) :
    Inv c (allow_inbound c rl s t).2 t := by
  obtain ⟨h1, h2, h3, h4, h5, h6⟩ := hInv
  have hchain : List.Chain' (· ≤ ·) (trimWindow 60 t (rl.events_minute s)) :=
    trimWindow_chain' (h1 s).1
  have hmem : ∀ u ∈ trimWindow 60 t (rl.events_minute s), u ≤ t :=
    fun u hu => le_trans ((h1 s).2 u (trimWindow_mem hu)) hT
  by_cases hlen : (trimWindow 60 t (rl.events_minute s)).length ≥ c.INBOUND_LIMIT_PER_MIN
  · have hrl : (allow_inbound c rl s t).2
        = { rl with events_minute := updMap rl.events_minute s (trimWindow 60 t (rl.events_minute s)) } := by
      simp [allow_inbound, hlen]
    rw [hrl]
    refine ⟨?_, h2, fun u hu => le_trans (h3 u hu) hT, ?_, ?_, h6⟩
    · intro k
      by_cases hk : k = s
      · subst hk; exact ⟨by simpa [updMap] using hchain, by simpa [updMap] using hmem⟩
      · simp only [updMap, if_neg hk]
        exact ⟨(h1 k).1, fun u hu => le_trans ((h1 k).2 u hu) hT⟩
    · intro s' hs'
      by_cases hk : s' = s
      · subst hk
        simpa [updMap] using le_trans (trimWindow_length_le 60 t _) (h4 s' hs')
      · simpa [updMap, hk] using h4 s' hs'
    · intro k
      have hk : "out::" ++ k ≠ s := fun he => hs ⟨k, he.symm⟩
      simpa [updMap, hk] using h5 k
  · push_neg at hlen
    have hrl : (allow_inbound c rl s t).2
        = { rl with events_minute := updMap rl.events_minute s (trimWindow 60 t (rl.events_minute s) ++ [t]) } := by
      simp [allow_inbound, Nat.not_le.mpr hlen]
    rw [hrl]
    refine ⟨?_, h2, fun u hu => le_trans (h3 u hu) hT, ?_, ?_, h6⟩
    · intro k
      by_cases hk : k = s
      · subst hk
        refine ⟨by simpa [updMap] using chain'_append_singleton hchain hmem, ?_⟩
        intro u hu
        simp only [updMap, if_pos rfl] at hu
        rcases List.mem_append.mp hu with h | h
        · exact hmem u h
        · simp at h; omega
      · simp only [updMap, if_neg hk]
        exact ⟨(h1 k).1, fun u hu => le_trans ((h1 k).2 u hu) hT⟩
    · intro s' hs'
      by_cases hk : s' = s
      · subst hk
        simp [updMap, List.length_append]
        omega
      · simpa [updMap, hk] using h4 s' hs'
    · intro k
      have hk : "out::" ++ k ≠ s := fun he => hs ⟨k, he.symm⟩
      simpa [updMap, hk] using h5 k

/-- `allow_outbound` preserves the window invariant when the clock
does not go backwards. -/
lemma Inv_step_outb (c : Config) {rl : RateLimiter} {T : Nat} (k : String) (t : Nat)
    (hInv : Inv c rl T) (hT : T ≤ t) :
    Inv c (allow_outbound c rl k t).2 t := by
  obtain ⟨h1, h2, h3, h4, h5, h6⟩ := hInv
  have hchain : List.Chain' (· ≤ ·) (trimWindow 60 t (rl.events_minute ("out::" ++ k))) :=
    trimWindow_chain' (h1 _).1
  have hmem : ∀ u ∈ trimWindow 60 t (rl.events_minute ("out::" ++ k)), u ≤ t :=
    fun u hu => le_trans ((h1 _).2 u (trimWindow_mem hu)) hT
  have hdchain : List.Chain' (· ≤ ·) (trimWindow 86400 t rl.events_day) :=
    trimWindow_chain' h2
  have hdmem : ∀ u ∈ trimWindow 86400 t rl.events_day, u ≤ t :=
    fun u hu => le_trans (h3 u (trimWindow_mem hu)) hT
  by_cases hlen : (trimWindow 60 t (rl.events_minute ("out::" ++ k))).length
      ≥ c.OUTBOUND_LIMIT_PER_MIN
  · have hrl : (allow_outbound c rl k t).2
        = { rl with events_minute := updMap rl.events_minute ("out::" ++ k) (trimWindow 60 t (rl.events_minute ("out::" ++ k))) } := by
      simp [allow_outbound, hlen]
    rw [hrl]
    refine ⟨?_, h2, fun u hu => le_trans (h3 u hu) hT, ?_, ?_, h6⟩
    · intro k'
      by_cases hk : k' = "out::" ++ k
      · subst hk; exact ⟨by simpa [updMap] using hchain, by simpa [updMap] using hmem⟩
      · simp only [updMap, if_neg hk]
        exact ⟨(h1 k').1, fun u hu => le_trans ((h1 k').2 u hu) hT⟩
    · intro s' hs'
      have hk : s' ≠ "out::" ++ k := fun he => hs' ⟨k, he⟩
      simpa [updMap, hk] using h4 s' hs'
    · intro k'
      by_cases hk : ("out::" ++ k' : String) = "out::" ++ k
      · rw [hk]
        simpa [updMap] using le_trans (trimWindow_length_le 60 t _) (by rw [← hk]; exact h5 k')
      · simpa [updMap, hk] using h5 k'
  · push_neg at hlen
    by_cases hday : (trimWindow 86400 t rl.events_day).length ≥ c.OUTBOUND_LIMIT_PER_DAY
    · have hrl : (allow_outbound c rl k t).2
          = { events_minute := updMap rl.events_minute ("out::" ++ k) (trimWindow 60 t (rl.events_minute ("out::" ++ k))), events_day := trimWindow 86400 t rl.events_day } := by
        simp [allow_outbound, Nat.not_le.mpr hlen, hday]
      rw [hrl]
      refine ⟨?_, hdchain, hdmem, ?_, ?_, le_trans (trimWindow_length_le 86400 t _) h6⟩
      · intro k'
        by_cases hk : k' = "out::" ++ k
        · subst hk; exact ⟨by simpa [updMap] using hchain, by simpa [updMap] using hmem⟩
        · simp only [updMap, if_neg hk]
          exact ⟨(h1 k').1, fun u hu => le_trans ((h1 k').2 u hu) hT⟩
      · intro s' hs'
        have hk : s' ≠ "out::" ++ k := fun he => hs' ⟨k, he⟩
        simpa [updMap, hk] using h4 s' hs'
      · intro k'
        by_cases hk : ("out::" ++ k' : String) = "out::" ++ k
        · rw [hk]
          simpa [updMap] using le_trans (trimWindow_length_le 60 t _) (by rw [← hk]; exact h5 k')
        · simpa [updMap, hk] using h5 k'
    · push_neg at hday
      have hrl : (allow_outbound c rl k t).2
          = { events_minute := updMap rl.events_minute ("out::" ++ k) (trimWindow 60 t (rl.events_minute ("out::" ++ k)) ++ [t]), events_day := trimWindow 86400 t rl.events_day ++ [t] } := by
        simp [allow_outbound, Nat.not_le.mpr hlen, Nat.not_le.mpr hday]
      rw [hrl]
      refine ⟨?_, chain'_append_singleton hdchain hdmem, ?_, ?_, ?_, ?_⟩
      · intro k'
        by_cases hk : k' = "out::" ++ k
        · subst hk
          refine ⟨by simpa [updMap] using chain'_append_singleton hchain hmem, ?_⟩
          intro u hu
          simp only [updMap, if_pos rfl] at hu
          rcases List.mem_append.mp hu with h | h
          · exact hmem u h
          · simp at h; omega
        · simp only [updMap, if_neg hk]
          exact ⟨(h1 k').1, fun u hu => le_trans ((h1 k').2 u hu) hT⟩
      · intro u hu
        rcases List.mem_append.mp hu with h | h
        · exact hdmem u h
        · simp at h; omega
      · intro s' hs'
        have hk : s' ≠ "out::" ++ k := fun he => hs' ⟨k, he⟩
        simpa [updMap, hk] using h4 s' hs'
      · intro k'
        by_cases hk : ("out::" ++ k' : String) = "out::" ++ k
        · rw [hk]
          simp [updMap, List.length_append]
          omega
        · simpa [updMap, hk] using h5 k'
      · simp [List.length_append]
        omega

/-- Running a whole monotone-clock trace with no inbound sender using
a reserved `out::` key preserves the invariant at the final clock. -/
lemma Inv_runOps (c : Config) (ops : List RLOp) (rl : RateLimiter) (T : Nat)
    (hInv : Inv c rl T)
    (htimes : List.Chain' (· ≤ ·) (T :: ops.map RLOp.time))
    (hkeys : ∀ s t, RLOp.inb s t ∈ ops → ¬ isOutKey s) :
    ∃ T', Inv c (runOps c rl ops) T' := by
  induction ops generalizing rl T with
  | nil => exact ⟨T, hInv⟩
  | cons op ops ih =>
    have hTop : T ≤ op.time := by
      have := List.chain'_cons.mp (by simpa using htimes)
      exact this.1
    have htimes' : List.Chain' (· ≤ ·) (op.time :: ops.map RLOp.time) := by
      have := List.chain'_cons.mp (by simpa using htimes)
      simpa using this.2
    have hkeys' : ∀ s t, RLOp.inb s t ∈ ops → ¬ isOutKey s :=
      fun s t h => hkeys s t (List.mem_cons_of_mem op h)
    cases op with
    | inb s t =>
      exact ih _ t (Inv_step_inb c s t hInv hTop
        (hkeys s t (List.mem_cons_self _ _))) htimes' hkeys'
    | outb k t =>
      exact ih _ t (Inv_step_outb c k t hInv hTop) htimes' hkeys'

/-- A string whose first five characters differ from `out::` is not a
reserved outbound key. -/
lemma not_isOutKey_of_take {s : String} (h : s.data.take 5 ≠ "out::".data) :
    ¬ isOutKey s := by
  rintro ⟨k, rfl⟩
  apply h
  rw [String.data_append]
  exact List.take_left' (by decide)

/-- Concrete trace used by the C8 witness. -/
def wOps : List RLOp :=
  [RLOp.inb "+15551234567" 100, RLOp.outb "global" 120, RLOp.inb "+15551234567" 130]

/-- C8: after any monotone-clock trace of `allow_inbound` /
`allow_outbound` calls from a fresh limiter (with inbound senders not
colliding with the reserved `out::` key space), every minute window
and the daily window are sorted ascending, per-sender inbound windows
are within `INBOUND_LIMIT_PER_MIN`, per-key outbound minute windows
within `OUTBOUND_LIMIT_PER_MIN`, and the shared daily window within
`OUTBOUND_LIMIT_PER_DAY`. -/
theorem c8_windows_sorted_and_bounded (c : Config) (ops : List RLOp)
    (htimes : List.Chain' (· ≤ ·) (ops.map RLOp.time))
    (hkeys : ∀ s t, RLOp.inb s t ∈ ops → ¬ isOutKey s) :
    (∀ k, List.Chain' (· ≤ ·) ((runOps c RateLimiter.init ops).events_minute k))
    ∧ List.Chain' (· ≤ ·) (runOps c RateLimiter.init ops).events_day
    ∧ (∀ s t, RLOp.inb s t ∈ ops →
        ((runOps c RateLimiter.init ops).events_minute s).length ≤ c.INBOUND_LIMIT_PER_MIN)
    ∧ (∀ k, ((runOps c RateLimiter.init ops).events_minute ("out::" ++ k)).length
        ≤ c.OUTBOUND_LIMIT_PER_MIN)
    ∧ (runOps c RateLimiter.init ops).events_day.length ≤ c.OUTBOUND_LIMIT_PER_DAY := by
  have hInit : Inv c RateLimiter.init 0 := by
    refine ⟨fun k => ⟨List.chain'_nil, by simp [RateLimiter.init]⟩, List.chain'_nil,
      by simp [RateLimiter.init], ?_, ?_, ?_⟩ <;> simp [RateLimiter.init]
  have htimes0 : List.Chain' (· ≤ ·) (0 :: ops.map RLOp.time) := by
    rw [List.chain'_cons']
    exact ⟨fun y _ => Nat.zero_le y, htimes⟩
  obtain ⟨T', hI⟩ := Inv_runOps c ops RateLimiter.init 0 hInit htimes0 hkeys
  obtain ⟨h1, h2, _, h4, h5, h6⟩ := hI
  exact ⟨fun k => (h1 k).1, h2,
    fun s t hmem => h4 s (hkeys s t hmem), h5, h6⟩

/-- Witness for C8: a concrete three-call trace at times 100, 120, 130
satisfies the hypotheses and hence the window invariants. -/
theorem c8_windows_sorted_and_bounded_witness :
    List.Chain' (· ≤ ·) (wOps.map RLOp.time)
    ∧ (∀ s t, RLOp.inb s t ∈ wOps → ¬ isOutKey s)
    ∧ ((∀ k, List.Chain' (· ≤ ·) ((runOps cW RateLimiter.init wOps).events_minute k))
        ∧ List.Chain' (· ≤ ·) (runOps cW RateLimiter.init wOps).events_day
        ∧ (∀ s t, RLOp.inb s t ∈ wOps →
            ((runOps cW RateLimiter.init wOps).events_minute s).length
              ≤ cW.INBOUND_LIMIT_PER_MIN)
        ∧ (∀ k, ((runOps cW RateLimiter.init wOps).events_minute ("out::" ++ k)).length
            ≤ cW.OUTBOUND_LIMIT_PER_MIN)
        ∧ (runOps cW RateLimiter.init wOps).events_day.length
            ≤ cW.OUTBOUND_LIMIT_PER_DAY) := by
  have hkeys : ∀ s t, RLOp.inb s t ∈ wOps → ¬ isOutKey s := by
    intro s t hmem
    simp only [wOps, List.mem_cons, List.not_mem_nil, or_false] at hmem
    rcases hmem with h | h | h <;> first
      | (cases h; exact not_isOutKey_of_take (by decide))
      | (cases h)
  have htimes : List.Chain' (· ≤ ·) (wOps.map RLOp.time) := by
    norm_num [wOps, RLOp.time, List.chain'_cons]
  exact ⟨htimes, hkeys, c8_windows_sorted_and_bounded cW wOps htimes hkeys⟩

/-- Python's `s.replace(pat, "")` for a non-empty `pat`: scan left to
right, and at each position either remove one full occurrence of `pat`
and resume after it, or keep the character.  (For `pat = []` the scan
keeps every character, which is also what an empty replacement
yields.)  The recursion is structural on a fuel argument so that the
function reduces in the kernel; every step consumes at least one
character, so fuel equal to the input length always suffices. -/
def removeOccAux (pat : List Char) : Nat → List Char → List Char
  | _, [] => []
  | 0, l => l
  | fuel + 1, ch :: rest =>
    if pat ≠ [] ∧ pat.isPrefixOf (ch :: rest) then
      removeOccAux pat fuel (List.drop pat.length (ch :: rest))
    else
      ch :: removeOccAux pat fuel rest

def removeOcc (pat l : List Char) : List Char := removeOccAux pat l.length l

/-- `s.replace(pat, "")` lifted to `String`. -/
def pyRemoveAll (s pat : String) : String := String.mk (removeOcc pat.data s.data)

/-- `str(msg["from"]).split("/")[0]` (line 150): the characters before
the first `/`, i.e. the bare JID. -/
def bareJid (s : String) : String := String.mk (s.data.takeWhile (fun ch => ch ≠ '/'))

/-- `body.startswith(REQUIRE_PREFIX)`: Python's byte-wise startswith
is character-prefix comparison. -/
def pyStartsWith (s pat : String) : Bool := pat.data.isPrefixOf s.data

/-- `s[:n]`: Python slicing is by characters. -/
def pyTake (s : String) (n : Nat) : String := String.mk (s.data.take n)

/-- `redact_phone` (lines 101-104): addresses shorter than 4
characters log as a fixed mask, otherwise only the last 4 characters
(`phone[-4:]`) are shown. -/
def redact_phone (phone : String) : String :=
  if phone.data.length < 4 then "***"
  else "***" ++ String.mk (phone.data.drop (phone.data.length - 4))

/-- The record persisted for an accepted inbound message
(line 175). -/
structure InboundRecord where
  fromPhone : String
  body : String
  timestamp : Nat
  jid : String
deriving Repr, DecidableEq

/-- Observable outcome of `JMPBridge.on_message`: the successor
limiter state, the inbox file write (filename and record) if any, the
webhook dispatch (phone, body, timestamp) if any, and log lines. -/
structure MsgResult where
  rl : RateLimiter
  inboxWrite : Option (String × InboundRecord)
  hook : Option (String × String × Nat)
  logs : List String

/-- `JMPBridge.on_message` (lines 146-184) as a pure function of the
message, the limiter state and the sampled clock.  The filesystem
write, the webhook executor dispatch and the log calls are returned as
data. -/
def on_message (c : Config) (rl : RateLimiter) (mfrom mbody : String) (now : Nat) :
    MsgResult :=
  if mbody = "" then ⟨rl, none, none, []⟩
  else
    let frm := bareJid mfrom
    if frm = "jabber.fr" then ⟨rl, none, none, []⟩
    else if frm = "cheogram.com" then
      ⟨rl, none, none, ["[ADMIN] cheogram.com: " ++ pyTake mbody 100]⟩
    else
      let phone := pyRemoveAll frm "@cheogram.com"
      if c.ALLOWED_SENDERS ≠ [] ∧ phone ∉ c.ALLOWED_SENDERS then
        ⟨rl, none, none, ["[DROP] Untrusted sender " ++ redact_phone phone]⟩
      else
        let r := allow_inbound c rl phone now
        if r.1 = false then
          ⟨r.2, none, none, ["[DROP] Inbound rate limit for " ++ redact_phone phone]⟩
        else if c.requiredStart ≠ "" ∧ ¬ pyStartsWith mbody c.requiredStart then
          ⟨r.2, none, none, ["[DROP] Missing required prefix from " ++ redact_phone phone]⟩
        else
          let body2 := pyTake mbody c.MAX_SMS_LEN
          let filename := toString now ++ "-" ++ pyRemoveAll phone "+" ++ ".json"
          ⟨r.2, some (filename, ⟨phone, body2, now, frm⟩), some (phone, body2, now),
            ["[SMS IN] " ++ redact_phone phone ++ ": " ++ pyTake body2 80]⟩

/-- C7 counterexample: a message whose bare JID is the hardcoded
server origin `jabber.fr` has a normalized sender outside the
(non-empty) allow-list and is indeed dropped with no inbox write and
no webhook — but it produces no log line at all, so "the only
observable effect is a local log line with a redacted sender" fails
for it. -/
theorem c7_counterexample :
    cW.ALLOWED_SENDERS ≠ []
    ∧ pyRemoveAll (bareJid "jabber.fr/resource") "@cheogram.com"
        ∉ cW.ALLOWED_SENDERS
    ∧ (on_message cW RateLimiter.init "jabber.fr/resource" "hi" 0).inboxWrite = none
    ∧ (on_message cW RateLimiter.init "jabber.fr/resource" "hi" 0).hook = none
    ∧ (on_message cW RateLimiter.init "jabber.fr/resource" "hi" 0).logs = []
    ∧ (on_message cW RateLimiter.init "jabber.fr/resource" "hi" 0).logs
        ≠ ["[DROP] Untrusted sender "
            ++ redact_phone (pyRemoveAll (bareJid "jabber.fr/resource") "@cheogram.com")] := by
  refine ⟨by decide, by decide, ?_, ?_, ?_, ?_⟩ <;> decide

/-- C7 as amended: for every inbound message with a non-empty body
whose bare JID is neither of the two hardcoded origins (`jabber.fr`,
`cheogram.com`) and whose normalized sender is not in the non-empty
allow-list, the message is dropped: the limiter is untouched, no inbox
file is written, no webhook is fired, and the only observable effect
is a single log line with the redacted sender. -/
theorem c7_amended_untrusted_sender_dropped (c : Config) (rl : RateLimiter)
    (mfrom mbody : String) (now : Nat)
    (hbody : mbody ≠ "")
    (hfrm1 : bareJid mfrom ≠ "jabber.fr")
    (hfrm2 : bareJid mfrom ≠ "cheogram.com")
    (hne : c.ALLOWED_SENDERS ≠ [])
    (hmem : pyRemoveAll (bareJid mfrom) "@cheogram.com" ∉ c.ALLOWED_SENDERS) :
    on_message c rl mfrom mbody now
      = ⟨rl, none, none,
          ["[DROP] Untrusted sender "
            ++ redact_phone (pyRemoveAll (bareJid mfrom) "@cheogram.com")]⟩ := by
  simp only [on_message, if_neg hbody, if_neg hfrm1, if_neg hfrm2]
  rw [if_pos ⟨hne, hmem⟩]

/-- Witness for the amended C7: an unlisted sender behind the gateway
domain is dropped with exactly the one redacted log line. -/
theorem c7_amended_untrusted_sender_dropped_witness :
    ("hi" ≠ ""
    ∧ bareJid "+19998887777@cheogram.com/res" ≠ "jabber.fr"
    ∧ bareJid "+19998887777@cheogram.com/res" ≠ "cheogram.com"
    ∧ cW.ALLOWED_SENDERS ≠ []
    ∧ pyRemoveAll (bareJid "+19998887777@cheogram.com/res") "@cheogram.com"
        ∉ cW.ALLOWED_SENDERS)
    ∧ on_message cW RateLimiter.init "+19998887777@cheogram.com/res" "hi" 0
      = ⟨RateLimiter.init, none, none,
          ["[DROP] Untrusted sender "
            ++ redact_phone (pyRemoveAll (bareJid "+19998887777@cheogram.com/res") "@cheogram.com")]⟩ :=
  ⟨⟨by decide, by decide, by decide, by decide, by decide⟩,
    c7_amended_untrusted_sender_dropped cW RateLimiter.init
      "+19998887777@cheogram.com/res" "hi" 0
      (by decide) (by decide) (by decide) (by decide) (by decide)⟩

/-- Test configuration for C10 whose allow-list holds the fully
stripped form of the hostile JID. -/
def cEvil : Config := ⟨["x.evil"], "", 1000, 30, 30, 300⟩

/-- C10: sender normalization is `replace("@cheogram.com", "")`, which
removes every (left-to-right, non-overlapping) occurrence of the
substring, not only a trailing domain suffix: `"x@cheogram.com.evil"`
normalizes to `"x.evil"`, and that normalized form is what allow-list
matching, rate-limit keying and the inbox filename all use. -/
theorem c10_normalization_removes_every_occurrence :
    pyRemoveAll "x@cheogram.com.evil" "@cheogram.com" = "x.evil"
    ∧ pyRemoveAll "+15551234567@cheogram.com" "@cheogram.com" = "+15551234567"
    ∧ (on_message cEvil RateLimiter.init "x@cheogram.com.evil/res" "hello" 7).inboxWrite
        = some ("7-x.evil.json", ⟨"x.evil", "hello", 7, "x@cheogram.com.evil"⟩)
    ∧ (on_message cEvil RateLimiter.init "x@cheogram.com.evil/res" "hello" 7).rl.events_minute
        "x.evil" = [7]
    ∧ (on_message cEvil RateLimiter.init "x@cheogram.com.evil/res" "hello" 7).hook
        = some ("x.evil", "hello", 7) := by
  refine ⟨by decide, by decide, ?_, ?_, ?_⟩ <;> decide

/-- An outbound record `{to, body}` successfully read from an outbox
file (lines 204-206). -/
structure OutboundRecord where
  to_phone : String
  body : String
deriving Repr, DecidableEq

/-- A file in the outbox directory: its stem and suffix (Python
`Path.suffix` / `Path.with_suffix` semantics), the parse outcome of
its content (`none` abstracts `json.load` raising or a required field
missing), and fault flags for the three I/O calls the loop makes on it
(`send_message`, `unlink`, `rename`). -/
structure OutFile where
  stem : String
  suffix : String
  parsed : Option OutboundRecord
  sendFails : Bool
  unlinkFails : Bool
  renameFails : Bool
deriving Repr, DecidableEq

/-- Final filesystem state of one file after one pass of the loop
body. -/
inductive FileFate
  | skipped
  | deleted
  | failedMark
  | kept
deriving Repr, DecidableEq

/-- Outcome of the loop body for one file: the successor limiter
state, the `send_message` calls made (destination JID, body), and the
file's fate. -/
structure FileResult where
  rl : RateLimiter
  sends : List (String × String)
  fate : FileFate

/-- The body of the `for f in sorted(OUTBOX_DIR.iterdir())` loop
(lines 199-221) for a single file: skip non-`.json` files; a parse
failure goes to the exception handler, which renames to `.failed`
(or leaves the file if the rename itself raises); a rate-limit denial
leaves the file untouched (`continue`); otherwise send, then unlink —
an exception from `send_message` or from `unlink` also lands in the
rename-to-`.failed` handler. -/
def processFile (c : Config) (rl : RateLimiter) (now : Nat) (f : OutFile) : FileResult :=
  if f.suffix ≠ ".json" then ⟨rl, [], .skipped⟩
  else
    match f.parsed with
    | none => ⟨rl, [], if f.renameFails then .kept else .failedMark⟩
    | some r =>
      let body := pyTake r.body c.MAX_SMS_LEN
      let res := allow_outbound c rl "global" now
      if res.1 = false then ⟨res.2, [], .kept⟩
      else if f.sendFails then ⟨res.2, [], if f.renameFails then .kept else .failedMark⟩
      else if f.unlinkFails then
        ⟨res.2, [(r.to_phone ++ "@cheogram.com", body)],
          if f.renameFails then .kept else .failedMark⟩
      else ⟨res.2, [(r.to_phone ++ "@cheogram.com", body)], .deleted⟩

/-- The directory entry left behind by a fate: deletion removes the
file, `failedMark` is `f.rename(f.with_suffix(".failed"))`, anything
else leaves the file as it was. -/
def nextFile (f : OutFile) : FileFate → Option OutFile
  | .deleted => none
  | .failedMark => some { f with suffix := ".failed" }
  | _ => some f

/-- The scan filter of line 200: only `.json`-suffixed files are ever
processed. -/
def isCandidate (f : OutFile) : Bool := f.suffix == ".json"

/-- One full tick of `watch_outbox` over the sorted directory listing,
threading the limiter state and collecting sends and the resulting
directory contents. -/
def scanOutbox (c : Config) (rl : RateLimiter) (now : Nat) :
    List OutFile → RateLimiter × List (String × String) × List OutFile
  | [] => (rl, [], [])
  | f :: fs =>
    let r := processFile c rl now f
    let rest := scanOutbox c r.rl now fs
    (rest.1, r.sends ++ rest.2.1, (nextFile f r.fate).toList ++ rest.2.2)

/-- C3: draining a well-formed `.json` outbox record at a tick where
`allow_outbound` answers `true` makes exactly one send, to
`<to>@cheogram.com` with the body truncated to `MAX_SMS_LEN`, and
deletes the file; if `allow_outbound` answers `false` the file is left
untouched in the directory and (still `.json`-suffixed) is a candidate
on the next scan. -/
theorem c3_drain_sends_once_and_deletes (c : Config) (rl : RateLimiter) (now : Nat)
    (stem : String) (r : OutboundRecord) :
    scanOutbox c rl now [⟨stem, ".json", some r, false, false, false⟩]
      = (if (allow_outbound c rl "global" now).1
         then ((allow_outbound c rl "global" now).2,
               [(r.to_phone ++ "@cheogram.com", pyTake r.body c.MAX_SMS_LEN)], [])
         else ((allow_outbound c rl "global" now).2, [],
               [⟨stem, ".json", some r, false, false, false⟩]))
    ∧ isCandidate ⟨stem, ".json", some r, false, false, false⟩ = true := by
  constructor
  · by_cases h : (allow_outbound c rl "global" now).1
    · simp [scanOutbox, processFile, nextFile, h]
    · simp only [Bool.not_eq_true] at h
      simp [scanOutbox, processFile, nextFile, h]
  · rfl

/-- C4: an outbox file with the `.json` suffix that fails to parse is
renamed to the `.failed` suffix (when the rename call itself does not
raise), is never deleted and never produces a send whatever the fault
flags are, and a `.failed`-suffixed file is skipped untouched by every
scan, so it is never processed again. -/
theorem c4_malformed_marked_failed_never_retried (c : Config) (rl : RateLimiter)
    (now : Nat) (stem : String) (sf uf rn : Bool) (stem' : String)
    (parsed' : Option OutboundRecord) (sf' uf' rn' : Bool) :
    (processFile c rl now ⟨stem, ".json", none, sf, uf, false⟩).fate = .failedMark
    ∧ nextFile ⟨stem, ".json", none, sf, uf, false⟩
        (processFile c rl now ⟨stem, ".json", none, sf, uf, false⟩).fate
        = some ⟨stem, ".failed", none, sf, uf, false⟩
    ∧ (processFile c rl now ⟨stem, ".json", none, sf, uf, rn⟩).fate ≠ .deleted
    ∧ (processFile c rl now ⟨stem, ".json", none, sf, uf, rn⟩).sends = []
    ∧ (processFile c rl now ⟨stem, ".json", none, sf, uf, rn⟩).rl = rl
    ∧ isCandidate ⟨stem', ".failed", parsed', sf', uf', rn'⟩ = false
    ∧ processFile c rl now ⟨stem', ".failed", parsed', sf', uf', rn'⟩
        = ⟨rl, [], .skipped⟩
    ∧ nextFile ⟨stem', ".failed", parsed', sf', uf', rn'⟩ FileFate.skipped
        = some ⟨stem', ".failed", parsed', sf', uf', rn'⟩ := by
  refine ⟨by simp [processFile, nextFile], by simp [processFile, nextFile], ?_, ?_, ?_,
    by simp [isCandidate], by simp [processFile], by simp [nextFile]⟩
  · cases rn <;> simp [processFile]
  · cases rn <;> simp [processFile]
  · cases rn <;> simp [processFile]

/-- C9: when the send succeeds but the subsequent `unlink` raises, the
exception handler renames the already-sent record to `.failed`: the
send call was made, yet the file ends in the failed state — "sent
implies deleted" does not hold when the delete itself fails. -/
theorem c9_sent_but_unlink_fails_lands_in_failed (c : Config) (rl : RateLimiter)
    (now : Nat) (stem : String) (r : OutboundRecord)
    (h : (allow_outbound c rl "global" now).1 = true) :
    processFile c rl now ⟨stem, ".json", some r, false, true, false⟩
      = ⟨(allow_outbound c rl "global" now).2,
         [(r.to_phone ++ "@cheogram.com", pyTake r.body c.MAX_SMS_LEN)], .failedMark⟩
    ∧ nextFile ⟨stem, ".json", some r, false, true, false⟩ FileFate.failedMark
        = some ⟨stem, ".failed", some r, false, true, false⟩ := by
  constructor
  · simp [processFile, h]
  · rfl

/-- Witness for C9: with capacity available at time 5, the record is
sent and the file still ends up `.failed`. -/
theorem c9_sent_but_unlink_fails_lands_in_failed_witness :
    (allow_outbound cW RateLimiter.init "global" 5).1 = true
    ∧ (processFile cW RateLimiter.init 5 ⟨"msg1", ".json", some ⟨"+15551234567", "hi"⟩, false, true, false⟩
        = ⟨(allow_outbound cW RateLimiter.init "global" 5).2,
           [("+15551234567" ++ "@cheogram.com", pyTake "hi" cW.MAX_SMS_LEN)], .failedMark⟩
      ∧ nextFile ⟨"msg1", ".json", some ⟨"+15551234567", "hi"⟩, false, true, false⟩
          FileFate.failedMark
          = some ⟨"msg1", ".failed", some ⟨"+15551234567", "hi"⟩, false, true, false⟩) :=
  ⟨rfl, c9_sent_but_unlink_fails_lands_in_failed cW RateLimiter.init 5 "msg1"
      ⟨"+15551234567", "hi"⟩ rfl⟩

/-- Supervisor state relevant to drain-loop accounting: the `running`
flag and the number of `watch_outbox` tasks spawned and still alive.
A `watch_outbox` task terminates only by observing `running = false`
at its `while` guard (line 197); a reconnect neither cancels it nor is
any task handle stored. -/
structure BridgeTasks where
  running : Bool
  drainLoops : Nat
deriving Repr, DecidableEq

/-- `JMPBridge.__init__` (line 133): `running = True`, no drain task
yet. -/
def BridgeTasks.start : BridgeTasks := ⟨true, 0⟩

/-- The effect of `on_session` (lines 135-140) on the task state:
`asyncio.ensure_future(self.watch_outbox())` is executed
unconditionally on every `session_start` event — one more live drain
loop, with no check for, or cancellation of, an existing one. -/
def on_session_spawn (s : BridgeTasks) : BridgeTasks :=
  { s with drainLoops := s.drainLoops + 1 }

/-- C5 is violated by the code: `session_start` firing twice (initial
connect, then a reconnect while `running` stays true, so the first
loop is still alive) leaves two concurrent `watch_outbox` loops —
`on_session` has no guard against accumulating drain loops. -/
theorem c5_two_session_starts_give_two_drain_loops :
    (on_session_spawn (on_session_spawn BridgeTasks.start)).running = true
    ∧ (on_session_spawn (on_session_spawn BridgeTasks.start)).drainLoops = 2
    ∧ ¬ (on_session_spawn (on_session_spawn BridgeTasks.start)).drainLoops ≤ 1 := by
  refine ⟨rfl, rfl, by decide⟩

/-- Actions of the `watch_outbox` loop visible to the shutdown
discipline. -/
inductive DrainAct
  | scan
  | sleep
deriving Repr, DecidableEq

/-- The `watch_outbox` loop (lines 196-225) as a trace of its actions,
driven by the successive values its `while` guard reads from
`self.running`: a `true` read performs one full outbox scan and then
the 2-second sleep; a `false` read exits the loop at once. -/
def watch_outbox_trace : List Bool → List DrainAct
  | [] => []
  | b :: bs => if b then .scan :: .sleep :: watch_outbox_trace bs else []

/-- Actions of the reconnect path. -/
inductive ReconnAct
  | sleep5
  | connect
deriving Repr, DecidableEq

/-- `on_disconnect` (lines 186-189) plus `reconnect_delayed`
(lines 191-194): `runningAtEvent` is `self.running` read in
`on_disconnect` before scheduling the delayed task, and
`runningAfterSleep` is the value read after the 5-second sleep, just
before `self.connect()`. -/
def reconnect_trace (runningAtEvent runningAfterSleep : Bool) : List ReconnAct :=
  if runningAtEvent then
    .sleep5 :: (if runningAfterSleep then [.connect] else [])
  else []

lemma watch_outbox_trace_append_false (pre post : List Bool)
    (hpre : ∀ b ∈ pre, b = true) :
    watch_outbox_trace (pre ++ false :: post) = watch_outbox_trace pre := by
  induction pre with
  | nil => simp [watch_outbox_trace]
  | cons b bs ih =>
    have hb : b = true := hpre b (List.mem_cons_self b bs)
    subst hb
    simp only [List.cons_append, watch_outbox_trace, if_true]
    rw [List.append_eq, ih (fun x hx => hpre x (List.mem_cons_of_mem _ hx))]

lemma watch_outbox_trace_counts (pre : List Bool) (hpre : ∀ b ∈ pre, b = true) :
    (watch_outbox_trace pre).count DrainAct.scan = pre.length
    ∧ (watch_outbox_trace pre).count DrainAct.sleep = pre.length := by
  induction pre with
  | nil => simp [watch_outbox_trace]
  | cons b bs ih =>
    have hb : b = true := hpre b (List.mem_cons_self b bs)
    subst hb
    have hih := ih (fun x hx => hpre x (List.mem_cons_of_mem _ hx))
    simp [watch_outbox_trace, List.count_cons, hih.1, hih.2]

/-- C6: once `running` is read as `false`, the drain loop performs no
further scan and no further sleep regardless of later flag values (so
at most the in-flight iteration's single sleep separates clearing the
flag from loop exit), each completed iteration was guarded by a `true`
read and pairs one scan with one sleep; and the reconnect path
performs nothing when `running` was false at the disconnect event, and
never reconnects when `running` is false after its 5-second sleep. -/
theorem c6_running_flag_bounds_both_loops (pre post : List Bool) (rA rS : Bool)
    (hpre : ∀ b ∈ pre, b = true) :
    watch_outbox_trace (pre ++ false :: post) = watch_outbox_trace pre
    ∧ (watch_outbox_trace pre).count DrainAct.scan = pre.length
    ∧ (watch_outbox_trace pre).count DrainAct.sleep = pre.length
    ∧ (rA = false → reconnect_trace rA rS = [])
    ∧ (rS = false → ReconnAct.connect ∉ reconnect_trace rA rS) := by
  refine ⟨watch_outbox_trace_append_false pre post hpre,
    (watch_outbox_trace_counts pre hpre).1, (watch_outbox_trace_counts pre hpre).2, ?_, ?_⟩
  · intro h; subst h; simp [reconnect_trace]
  · intro h; subst h; cases rA <;> simp [reconnect_trace]

/-- Witness for C6: two healthy iterations, then the stop flag. -/
theorem c6_running_flag_bounds_both_loops_witness :
    (∀ b ∈ [true, true], b = true)
    ∧ (watch_outbox_trace ([true, true] ++ false :: [true])
          = watch_outbox_trace [true, true]
        ∧ (watch_outbox_trace [true, true]).count DrainAct.scan = [true, true].length
        ∧ (watch_outbox_trace [true, true]).count DrainAct.sleep = [true, true].length
        ∧ (false = false → reconnect_trace false false = [])
        ∧ (false = false → ReconnAct.connect ∉ reconnect_trace false false)) :=
  ⟨by decide, c6_running_flag_bounds_both_loops [true, true] [true] false false (by decide)⟩

end JmpBridge
